import Mathlib

/-!
Shallow embedding of the stepper motor driver `src/stepper-motor.c` of the
pico-nutator firmware, together with theorems settling the specification
claims about it.  Hardware side effects (`gpio_*`, `update`) have no bearing
on the controller state and are not modelled; the monotonic clock
`time_us_64()` becomes an explicit `now : Nat` argument.  C unsigned 64-bit
arithmetic is modelled on `Nat` (timestamps and intervals stay far below
2^64 in any realistic run, and the bit masks stay below `2^(num_pins+1)`),
and the `int64_t` clamping arithmetic of the ramp coincides with the `Nat`
version because the clamp bound is nonnegative.
-/

namespace PicoStepper

/-- Drive modes, from `enum stepper_mode` in `stepper-motor.h`. -/
inductive StepperMode where
  | wave
  | dualPhase
  | halfStep
  deriving DecidableEq, Repr

/-- The controller state: the fields of `struct stepper` that take part in
the control logic.  The pin list, PWM flags and `enable_pin` only feed the
hardware write `update()`, and `accel_rpm_per_sec` is never read or written
by the source, so they are omitted; `num_pins` is kept because the mask
rotation width depends on it. -/
structure Stepper where
  steps_per_rev : Nat
  max_rpm : Nat
  mode : StepperMode
  mask : Nat
  half_mask : Nat
  target_rpm : Nat
  num_pins : Nat
  last_step : Nat
  us_per_step_target : Nat
  us_per_step : Nat
  us_accel : Nat
  max_us_per_step : Nat
  last_accel_step : Nat
  step_count : Nat
  deriving DecidableEq, Repr

/-- Microseconds per second, the `US_PER_SEC` constant. -/
def US_PER_SEC : Nat := 1000000

/-- Microseconds per minute, the `US_PER_MIN` constant. -/
def US_PER_MIN : Nat := 60 * US_PER_SEC

/-- Models `rpm_to_step_us`: `US_PER_MIN / (rpm * steps_per_rev)`.  `Nat` division;
the C expression is undefined when the divisor is zero, which
`stepper_set_accel` below tracks explicitly. -/
def rpm_to_step_us (s : Stepper) (rpm : Nat) : Nat :=
  US_PER_MIN / (rpm * s.steps_per_rev)

/-- Models `step_mask`: rotate the active bits of `mask` one position within a ring
of `num_pins` bits, forward or backward, with circular wrap. -/
def step_mask (mask : Nat) (forward : Bool) (num_pins : Nat) : Nat :=
  let m :=
    if forward then
      (if mask &&& 1 ≠ 0 then mask ||| (1 <<< num_pins) else mask) >>> 1
    else
      let m2 := mask <<< 1
      if m2 &&& (1 <<< num_pins) ≠ 0 then m2 ||| 1 else m2
  m &&& ((1 <<< num_pins) - 1)

/-- Models `stepper_hold`: energize the fixed per-mode stationary pattern. -/
def stepper_hold (s : Stepper) : Stepper :=
  match s.mode with
  | .wave => { s with mask := 0x1, half_mask := 0x0 }
  | .dualPhase => { s with mask := 0x3, half_mask := 0x0 }
  | .halfStep => { s with mask := 0x1, half_mask := 0x1 }

/-- Models `stepper_brake`: clear both masks (no current). -/
def stepper_brake (s : Stepper) : Stepper :=
  { s with mask := 0, half_mask := 0 }

/-- Models `step`: one phase advance.  If `mask` is zero the driver re-establishes
the hold pattern instead of rotating.  In half-step mode the primary mask
rotates on odd `step_count` and the half mask on even `step_count`
(`s->step_count & 1` in the source, written `% 2` here). -/
def step (s : Stepper) (forward : Bool) : Stepper :=
  if s.mask = 0 then
    stepper_hold s
  else if s.mode ≠ .halfStep ∨ s.step_count % 2 = 1 then
    { s with mask := step_mask s.mask forward s.num_pins,
             step_count := s.step_count + 1 }
  else
    { s with half_mask := step_mask s.half_mask forward s.num_pins,
             step_count := s.step_count + 1 }

/-- Models `stepper_step`: caller-driven single step; resets both timing anchors to
`now`. -/
def stepper_step (s : Stepper) (forward : Bool) (now : Nat) : Stepper :=
  let s' := step s forward
  { s' with last_step := now, last_accel_step := now }

/-- The effective ramp target of `stepper_update` line 172: the requested
interval, or `max_us_per_step` (the floor interval) when the request is
"stop". -/
def ramp_target (s : Stepper) : Nat :=
  if s.us_per_step_target ≠ 0 then s.us_per_step_target else s.max_us_per_step

/-- The clamped interval move of `stepper_update` lines 175-181: move
`us_per_step` toward `ramp_target` by the number of whole `us_accel` units
elapsed, clamped at the target.  The source computes this on `int64_t`;
since the clamp bound `ramp_target` is nonnegative, truncated `Nat`
subtraction under `max` yields the same value. -/
def ramp_move (s : Stepper) (now : Nat) : Nat :=
  let num_steps := (now - s.last_accel_step) / s.us_accel
  if s.us_per_step < ramp_target s then
    min (s.us_per_step + num_steps) (ramp_target s)
  else if ramp_target s < s.us_per_step then
    max (s.us_per_step - num_steps) (ramp_target s)
  else s.us_per_step

/-- The ramp-controller half of `stepper_update` (lines 163-188): moves
`us_per_step` toward the effective target at the configured rate, or copies
the target outright when ramping is disabled. -/
def ramp_update (s : Stepper) (now : Nat) : Stepper :=
  if s.us_accel ≠ 0 then
    if s.us_per_step_target = 0 ∧
        (s.us_per_step = s.max_us_per_step ∨ s.us_per_step = 0) then
      { s with us_per_step := 0 }
    else if s.us_per_step_target ≠ 0 ∧ s.us_per_step = 0 then
      { s with us_per_step := s.max_us_per_step }
    else if s.last_accel_step ≤ now then
      { s with us_per_step := ramp_move s now,
               last_accel_step := s.last_accel_step +
                 s.us_accel * ((now - s.last_accel_step) / s.us_accel) }
    else s
  else
    { s with us_per_step := s.us_per_step_target }

/-- The step-clock half of `stepper_update` (lines 190-203): if at least one
whole `us_per_step` interval has elapsed, take exactly one step and advance
`last_step` by one interval; return whether more than one interval elapsed
(the fell-behind signal `num_steps > 1`). -/
def clock_update (s : Stepper) (now : Nat) : Stepper × Bool :=
  if s.us_per_step = 0 then
    (s, false)
  else if s.last_step ≤ now then
    if (now - s.last_step) / s.us_per_step ≠ 0 then
      ({ step s true with
           last_step := (step s true).last_step + (step s true).us_per_step },
       decide (1 < (now - s.last_step) / s.us_per_step))
    else
      (s, decide (1 < (now - s.last_step) / s.us_per_step))
  else
    (s, false)

/-- Models `stepper_update`: one poll = ramp update followed by the step clock. -/
def stepper_update (s : Stepper) (now : Nat) : Stepper × Bool :=
  clock_update (ramp_update s now) now

/-- Models `stepper_set_accel`.  When `rpm_per_sec` is nonzero the source calls
`rpm_to_step_us` on `rpm_per_sec * 60` and on `min_rpm`; a zero divisor in
either call is a C division by zero (undefined behavior), modelled as
`none`.  (The source defines `MIN_RPM (1ull)` but never applies it.) -/
def stepper_set_accel (s : Stepper) (rpm_per_sec min_rpm : Nat) :
    Option Stepper :=
  if rpm_per_sec = 0 then
    some { s with us_accel := 0 }
  else if rpm_per_sec * 60 * s.steps_per_rev = 0 ∨
      min_rpm * s.steps_per_rev = 0 then
    none
  else
    some { s with us_accel := rpm_to_step_us s (rpm_per_sec * 60),
                  max_us_per_step := rpm_to_step_us s min_rpm }

/-- Models `stepper_set_rpm`: clamp to `max_rpm`; on a changed target, record the
new target rpm and interval and reset both timing anchors to `now`. -/
def stepper_set_rpm (s : Stepper) (rpm now : Nat) : Stepper :=
  let rpm' := min rpm s.max_rpm
  if rpm' = s.target_rpm then
    s
  else
    { s with target_rpm := rpm',
             last_step := now,
             last_accel_step := now,
             us_per_step_target :=
               if rpm' ≠ 0 then rpm_to_step_us s rpm' else 0 }

/-- Models `stepper_get_rpm`. -/
def stepper_get_rpm (s : Stepper) : Nat := s.target_rpm

/-- Models `stepper_get_actual_rpm`. -/
def stepper_get_actual_rpm (s : Stepper) : Nat :=
  if s.us_per_step = 0 then 0
  else US_PER_MIN / (s.us_per_step * s.steps_per_rev)

/-- States reachable from a `stepper_hold` by phase advances: the "held or
stepping" states of the spec (a `stepper_brake` leaves this set). -/
inductive HeldReach : Stepper → Prop where
  | hold' : ∀ s, HeldReach (stepper_hold s)
  | step' : ∀ s b, HeldReach s → HeldReach (step s b)

/-! ### Frame lemmas: which fields each operation leaves unchanged -/

theorem hold_num_pins (s : Stepper) : (stepper_hold s).num_pins = s.num_pins := by
  unfold stepper_hold; cases s.mode <;> rfl

theorem hold_us_per_step (s : Stepper) :
    (stepper_hold s).us_per_step = s.us_per_step := by
  unfold stepper_hold; cases s.mode <;> rfl

theorem hold_last_step (s : Stepper) :
    (stepper_hold s).last_step = s.last_step := by
  unfold stepper_hold; cases s.mode <;> rfl

theorem hold_last_accel_step (s : Stepper) :
    (stepper_hold s).last_accel_step = s.last_accel_step := by
  unfold stepper_hold; cases s.mode <;> rfl

theorem hold_step_count (s : Stepper) :
    (stepper_hold s).step_count = s.step_count := by
  unfold stepper_hold; cases s.mode <;> rfl

theorem step_num_pins (s : Stepper) (b : Bool) :
    (step s b).num_pins = s.num_pins := by
  unfold step; split
  · exact hold_num_pins s
  · split <;> rfl

theorem step_us_per_step (s : Stepper) (b : Bool) :
    (step s b).us_per_step = s.us_per_step := by
  unfold step; split
  · exact hold_us_per_step s
  · split <;> rfl

theorem step_last_step (s : Stepper) (b : Bool) :
    (step s b).last_step = s.last_step := by
  unfold step; split
  · exact hold_last_step s
  · split <;> rfl

theorem step_last_accel_step (s : Stepper) (b : Bool) :
    (step s b).last_accel_step = s.last_accel_step := by
  unfold step; split
  · exact hold_last_accel_step s
  · split <;> rfl

theorem clock_us_per_step (s : Stepper) (now : Nat) :
    ((clock_update s now).1).us_per_step = s.us_per_step := by
  unfold clock_update
  split
  · rfl
  split
  · split
    · exact step_us_per_step s true
    · rfl
  · rfl

theorem clock_last_accel_step (s : Stepper) (now : Nat) :
    ((clock_update s now).1).last_accel_step = s.last_accel_step := by
  unfold clock_update
  split
  · rfl
  split
  · split
    · exact step_last_accel_step s true
    · rfl
  · rfl

theorem ramp_last_step (s : Stepper) (now : Nat) :
    (ramp_update s now).last_step = s.last_step := by
  unfold ramp_update
  repeat' split
  all_goals rfl

/-! ### Concrete states used as test vectors -/

/-- A freshly constructed 200-step wave-mode motor with four windings. -/
def demo : Stepper :=
  { steps_per_rev := 200, max_rpm := 60, mode := .wave, mask := 0,
    half_mask := 0, target_rpm := 0, num_pins := 4, last_step := 0,
    us_per_step_target := 0, us_per_step := 0, us_accel := 0,
    max_us_per_step := 0, last_accel_step := 0, step_count := 0 }

/-- A motor mid-run in wave mode: stepping with a 10 µs interval, ramping
disabled, five whole intervals already elapsed at poll time `now = 50`. -/
def catchup : Stepper :=
  { steps_per_rev := 200, max_rpm := 60, mode := .wave, mask := 1,
    half_mask := 0, target_rpm := 30, num_pins := 4, last_step := 0,
    us_per_step_target := 10, us_per_step := 10, us_accel := 0,
    max_us_per_step := 0, last_accel_step := 0, step_count := 0 }

/-- A half-step-mode motor mid-run with an even step count. -/
def demoHalf : Stepper :=
  { steps_per_rev := 400, max_rpm := 60, mode := .halfStep, mask := 1,
    half_mask := 1, target_rpm := 30, num_pins := 4, last_step := 0,
    us_per_step_target := 10, us_per_step := 10, us_accel := 0,
    max_us_per_step := 0, last_accel_step := 0, step_count := 0 }

/-! ### Claims about the step clock -/

/-- Claim C1: whenever `us_per_step` is nonzero and at least one whole
interval has elapsed since `last_step`, a poll of the step clock performs
exactly one phase advance (the post-state is `step s true` with `last_step`
advanced, never more than one advance), advances `last_step` by exactly one
`us_per_step` (not by the full elapsed amount), and returns the fell-behind
signal exactly when more than one interval has elapsed; consequently, after
an elapsed time of five step periods the next five polls each take one step,
with the first four asserting fell-behind and the fifth not. -/
theorem step_clock_single_step (s : Stepper) (now : Nat)
    (hus : s.us_per_step ≠ 0) (hle : s.last_step ≤ now)
    (helap : s.us_per_step ≤ now - s.last_step) :
    (clock_update s now).1 =
      { step s true with
          last_step := (step s true).last_step + (step s true).us_per_step } ∧
    (clock_update s now).1.last_step = s.last_step + s.us_per_step ∧
    ((clock_update s now).2 = true ↔ 2 * s.us_per_step ≤ now - s.last_step) ∧
    ((clock_update catchup 50).2 = true ∧
     (clock_update (clock_update catchup 50).1 50).2 = true ∧
     (clock_update (clock_update (clock_update catchup 50).1 50).1 50).2 =
       true ∧
     (clock_update (clock_update (clock_update (clock_update catchup 50).1
       50).1 50).1 50).2 = true ∧
     (clock_update (clock_update (clock_update (clock_update (clock_update
       catchup 50).1 50).1 50).1 50).1 50).2 = false ∧
     (clock_update (clock_update (clock_update (clock_update (clock_update
       catchup 50).1 50).1 50).1 50).1 50).1.step_count =
       catchup.step_count + 5 ∧
     clock_update (clock_update (clock_update (clock_update (clock_update
       (clock_update catchup 50).1 50).1 50).1 50).1 50).1 50 =
       ((clock_update (clock_update (clock_update (clock_update (clock_update
         catchup 50).1 50).1 50).1 50).1 50).1, false)) := by
  have hpos : 0 < s.us_per_step := Nat.pos_of_ne_zero hus
  have hnum : (now - s.last_step) / s.us_per_step ≠ 0 := by
    have : 1 ≤ (now - s.last_step) / s.us_per_step :=
      (Nat.one_le_div_iff hpos).mpr helap
    omega
  refine ⟨?_, ?_, ?_, by decide⟩
  · unfold clock_update
    rw [if_neg hus, if_pos hle, if_pos hnum]
  · unfold clock_update
    rw [if_neg hus, if_pos hle, if_pos hnum]
    simp [step_last_step, step_us_per_step]
  · unfold clock_update
    rw [if_neg hus, if_pos hle, if_pos hnum]
    simp only [decide_eq_true_eq]
    constructor
    · intro h
      have : 2 ≤ (now - s.last_step) / s.us_per_step := h
      calc 2 * s.us_per_step ≤
            ((now - s.last_step) / s.us_per_step) * s.us_per_step :=
              Nat.mul_le_mul_right _ this
        _ ≤ now - s.last_step := Nat.div_mul_le_self _ _
    · intro h
      have : 2 ≤ (now - s.last_step) / s.us_per_step :=
        (Nat.le_div_iff_mul_le hpos).mpr (by omega)
      omega

/-- Witness for C1 at the concrete catch-up state. -/
theorem step_clock_single_step_witness :
    (catchup.us_per_step ≠ 0 ∧ catchup.last_step ≤ 50 ∧
     catchup.us_per_step ≤ 50 - catchup.last_step) ∧
    (clock_update catchup 50).1.last_step =
      catchup.last_step + catchup.us_per_step :=
  ⟨by decide,
   (step_clock_single_step catchup 50 (by decide) (by decide) (by decide)).2.1⟩

/-- Claim C2 as amended: the boolean returned by a poll is the fell-behind
signal, true exactly when `us_per_step` (after the ramp update) is nonzero
and more than one whole interval has elapsed since `last_step`; it is not a
"step occurred" indicator — a poll that takes exactly one step returns
`false`. -/
theorem poll_returns_fell_behind (s : Stepper) (now : Nat) :
    (stepper_update s now).2 = true ↔
      ((ramp_update s now).us_per_step ≠ 0 ∧ s.last_step ≤ now ∧
       1 < (now - s.last_step) / (ramp_update s now).us_per_step) := by
  unfold stepper_update clock_update
  rw [ramp_last_step]
  by_cases h0 : (ramp_update s now).us_per_step = 0
  · simp [h0]
  · by_cases h1 : s.last_step ≤ now
    · rw [if_neg h0, if_pos h1]
      by_cases h2 : (now - s.last_step) / (ramp_update s now).us_per_step ≠ 0
      · rw [if_pos h2]
        simp [h0, h1]
      · rw [if_neg h2]
        simp [h0, h1]
    · simp [h0, h1]

/-- Counterexample to claim C2 as stated: at this state exactly one interval
has elapsed, so the poll advances the phase sequencer (the step count
increments) yet returns `false` — the return value does not indicate that a
step occurred. -/
theorem poll_step_occurred_counterexample :
    (stepper_update catchup 10).1.step_count = catchup.step_count + 1 ∧
    (stepper_update catchup 10).2 = false := by decide

/-! ### Claims about the phase sequencer -/

/-- Claim C5: in half-step mode, each step with a nonzero primary mask
updates exactly one of the two masks, chosen strictly by the parity of
`step_count`: an odd `step_count` rotates `mask` and leaves `half_mask`
unchanged, an even `step_count` rotates `half_mask` and leaves `mask`
unchanged; `step_count` always increments by one. -/
theorem half_step_parity (s : Stepper) (fwd : Bool)
    (hmode : s.mode = .halfStep) (hmask : s.mask ≠ 0) :
    (s.step_count % 2 = 1 →
      (step s fwd).mask = step_mask s.mask fwd s.num_pins ∧
      (step s fwd).half_mask = s.half_mask) ∧
    (s.step_count % 2 = 0 →
      (step s fwd).half_mask = step_mask s.half_mask fwd s.num_pins ∧
      (step s fwd).mask = s.mask) ∧
    (step s fwd).step_count = s.step_count + 1 := by
  refine ⟨?_, ?_, ?_⟩
  · intro hp
    unfold step
    rw [if_neg hmask, if_pos (Or.inr hp)]
    exact ⟨rfl, rfl⟩
  · intro hp
    unfold step
    rw [if_neg hmask, if_neg (by simp [hmode]; omega)]
    exact ⟨rfl, rfl⟩
  · unfold step
    rw [if_neg hmask]
    split <;> rfl

/-- Witness for C5 at a concrete even-parity half-step state. -/
theorem half_step_parity_witness :
    (demoHalf.mode = .halfStep ∧ demoHalf.mask ≠ 0 ∧
     demoHalf.step_count % 2 = 0) ∧
    ((step demoHalf true).half_mask =
       step_mask demoHalf.half_mask true demoHalf.num_pins ∧
     (step demoHalf true).mask = demoHalf.mask) :=
  ⟨by decide, (half_step_parity demoHalf true rfl (by decide)).2.1 (by decide)⟩

/-- Claim C7: from any prior state, `stepper_brake` zeroes both masks, and a
subsequent `stepper_hold` establishes the fixed per-mode pattern: single-bit
`mask = 0x1` with zero `half_mask` for wave, two-bit `mask = 0x3` with zero
`half_mask` for dual-phase, and both masks equal to the same single bit
`0x1` for half-step. -/
theorem brake_then_hold (s : Stepper) :
    (stepper_brake s).mask = 0 ∧ (stepper_brake s).half_mask = 0 ∧
    (s.mode = .wave →
      (stepper_hold (stepper_brake s)).mask = 1 ∧
      (stepper_hold (stepper_brake s)).half_mask = 0) ∧
    (s.mode = .dualPhase →
      (stepper_hold (stepper_brake s)).mask = 3 ∧
      (stepper_hold (stepper_brake s)).half_mask = 0) ∧
    (s.mode = .halfStep →
      (stepper_hold (stepper_brake s)).mask = 1 ∧
      (stepper_hold (stepper_brake s)).half_mask = 1 ∧
      (stepper_hold (stepper_brake s)).mask =
        (stepper_hold (stepper_brake s)).half_mask) := by
  refine ⟨rfl, rfl, ?_, ?_, ?_⟩ <;>
    intro h <;> simp [stepper_hold, stepper_brake, h]

/-- Witness for C7 on the concrete wave-mode motor. -/
theorem brake_then_hold_witness :
    (demo.mode = .wave) ∧
    ((stepper_brake demo).mask = 0 ∧
     (stepper_hold (stepper_brake demo)).mask = 1 ∧
     (stepper_hold (stepper_brake demo)).half_mask = 0) :=
  ⟨rfl, (brake_then_hold demo).1, ((brake_then_hold demo).2.2.1 rfl).1,
   ((brake_then_hold demo).2.2.1 rfl).2⟩

/-! ### Claims about the ramp controller -/

/-- A motor mid-ramp: decelerating (interval 80 µs, target 50 µs), one ramp
unit per 100 µs. -/
def ramping : Stepper :=
  { steps_per_rev := 200, max_rpm := 60, mode := .wave, mask := 1,
    half_mask := 0, target_rpm := 30, num_pins := 4, last_step := 0,
    us_per_step_target := 50, us_per_step := 80, us_accel := 100,
    max_us_per_step := 200, last_accel_step := 0, step_count := 0 }

/-- A stopped motor that has just been given a nonzero target. -/
def launching : Stepper :=
  { steps_per_rev := 200, max_rpm := 60, mode := .wave, mask := 1,
    half_mask := 0, target_rpm := 30, num_pins := 4, last_step := 0,
    us_per_step_target := 50, us_per_step := 0, us_accel := 100,
    max_us_per_step := 200, last_accel_step := 0, step_count := 0 }

theorem ramp_move_bounds (s : Stepper) (now : Nat) :
    min s.us_per_step (ramp_target s) ≤ ramp_move s now ∧
    ramp_move s now ≤ max s.us_per_step (ramp_target s) := by
  unfold ramp_move
  dsimp only
  constructor
  · split
    · exact le_min (le_trans (min_le_left _ _) (Nat.le_add_right _ _))
        (min_le_right _ _)
    · split
      · exact le_trans (min_le_right _ _) (le_max_right _ _)
      · exact min_le_left _ _
  · split
    · exact le_trans (min_le_right _ _) (le_max_right _ _)
    · split
      · exact max_le (le_trans (Nat.sub_le _ _) (le_max_left _ _))
          (le_max_right _ _)
      · exact le_max_left _ _

/-- Claim C3: with ramping enabled and neither the stopped-hold nor the
launch-seeding case applying, a poll with `last_accel_step ≤ now` computes
`units = (now - last_accel_step) / us_accel`, moves `us_per_step` toward the
effective target (`ramp_target`: the requested interval, or the floor
interval when the request is stop) by exactly `units` clamped at the target
(so the interval never passes the target and never moves away from it), and
advances `last_accel_step` by exactly `units * us_accel`, not to `now`,
preserving the fractional remainder. -/
theorem ramp_moves_by_units (s : Stepper) (now : Nat)
    (ha : s.us_accel ≠ 0)
    (h1 : ¬(s.us_per_step_target = 0 ∧
            (s.us_per_step = s.max_us_per_step ∨ s.us_per_step = 0)))
    (h2 : ¬(s.us_per_step_target ≠ 0 ∧ s.us_per_step = 0))
    (hle : s.last_accel_step ≤ now) :
    (stepper_update s now).1.us_per_step =
      (if s.us_per_step < ramp_target s then
        min (s.us_per_step + (now - s.last_accel_step) / s.us_accel)
          (ramp_target s)
      else if ramp_target s < s.us_per_step then
        max (s.us_per_step - (now - s.last_accel_step) / s.us_accel)
          (ramp_target s)
      else s.us_per_step) ∧
    (stepper_update s now).1.last_accel_step =
      s.last_accel_step + ((now - s.last_accel_step) / s.us_accel) *
        s.us_accel ∧
    min s.us_per_step (ramp_target s) ≤ (stepper_update s now).1.us_per_step ∧
    (stepper_update s now).1.us_per_step ≤
      max s.us_per_step (ramp_target s) := by
  have hru : ramp_update s now =
      { s with us_per_step := ramp_move s now,
               last_accel_step := s.last_accel_step +
                 s.us_accel * ((now - s.last_accel_step) / s.us_accel) } := by
    unfold ramp_update
    rw [if_pos ha, if_neg h1, if_neg h2, if_pos hle]
  have hus : (stepper_update s now).1.us_per_step = ramp_move s now := by
    unfold stepper_update
    rw [clock_us_per_step, hru]
  have hla : (stepper_update s now).1.last_accel_step =
      s.last_accel_step +
        s.us_accel * ((now - s.last_accel_step) / s.us_accel) := by
    unfold stepper_update
    rw [clock_last_accel_step, hru]
  refine ⟨?_, ?_, ?_, ?_⟩
  · rw [hus]; unfold ramp_move; rfl
  · rw [hla, Nat.mul_comm]
  · rw [hus]; exact (ramp_move_bounds s now).1
  · rw [hus]; exact (ramp_move_bounds s now).2

/-- Witness for C3 at a concrete decelerating state: ten whole ramp units
have elapsed, so the interval moves from 80 µs to 70 µs toward the 50 µs
target and the ramp anchor advances by exactly 1000 µs. -/
theorem ramp_moves_by_units_witness :
    (ramping.us_accel ≠ 0 ∧
     ¬(ramping.us_per_step_target = 0 ∧
        (ramping.us_per_step = ramping.max_us_per_step ∨
         ramping.us_per_step = 0)) ∧
     ¬(ramping.us_per_step_target ≠ 0 ∧ ramping.us_per_step = 0) ∧
     ramping.last_accel_step ≤ 1000) ∧
    (stepper_update ramping 1000).1.last_accel_step =
      ramping.last_accel_step +
        ((1000 - ramping.last_accel_step) / ramping.us_accel) *
          ramping.us_accel :=
  ⟨by decide,
   (ramp_moves_by_units ramping 1000 (by decide) (by decide) (by decide)
     (by decide)).2.1⟩

/-- Claim C4: with ramping enabled, a nonzero target interval and a zero
current interval (motor stopped), a poll seeds `us_per_step` at the floor
interval `max_us_per_step` instead of ramping from an unbounded interval. -/
theorem ramp_launch_seeds_floor (s : Stepper) (now : Nat)
    (ha : s.us_accel ≠ 0) (htgt : s.us_per_step_target ≠ 0)
    (h0 : s.us_per_step = 0) :
    (stepper_update s now).1.us_per_step = s.max_us_per_step := by
  unfold stepper_update
  rw [clock_us_per_step]
  unfold ramp_update
  rw [if_pos ha, if_neg (by simp [htgt]), if_pos ⟨htgt, h0⟩]

/-- Witness for C4 at the concrete launching state. -/
theorem ramp_launch_seeds_floor_witness :
    (launching.us_accel ≠ 0 ∧ launching.us_per_step_target ≠ 0 ∧
     launching.us_per_step = 0) ∧
    (stepper_update launching 7).1.us_per_step = launching.max_us_per_step :=
  ⟨by decide,
   ramp_launch_seeds_floor launching 7 (by decide) (by decide) (by decide)⟩

/-! ### Claims about the speed and acceleration setters -/

/-- Claim C6: `stepper_set_rpm` clamps the requested rpm to
`[0, max_rpm]` before use — the stored target rpm is always
`min rpm max_rpm`, and on a change a nonzero clamped rpm converts to a
time-per-step interval while zero sets the target interval to stopped — and
the operation is idempotent: a second consecutive call with the same rpm
(at any later clock reading) leaves the entire state unchanged. -/
theorem set_rpm_clamp_idempotent (s : Stepper) (rpm now now' : Nat) :
    (stepper_set_rpm s rpm now).target_rpm = min rpm s.max_rpm ∧
    (min rpm s.max_rpm ≠ s.target_rpm →
      (stepper_set_rpm s rpm now).us_per_step_target =
        (if min rpm s.max_rpm ≠ 0 then rpm_to_step_us s (min rpm s.max_rpm)
         else 0)) ∧
    stepper_set_rpm (stepper_set_rpm s rpm now) rpm now' =
      stepper_set_rpm s rpm now := by
  by_cases h : min rpm s.max_rpm = s.target_rpm
  · refine ⟨?_, ?_, ?_⟩
    · unfold stepper_set_rpm
      rw [if_pos h]
      exact h.symm
    · intro hc; exact absurd h hc
    · unfold stepper_set_rpm
      rw [if_pos h, if_pos h]
  · refine ⟨?_, ?_, ?_⟩
    · unfold stepper_set_rpm
      rw [if_neg h]
    · intro _
      unfold stepper_set_rpm
      rw [if_neg h]
    · have h1 : stepper_set_rpm s rpm now =
          { s with target_rpm := min rpm s.max_rpm,
                   last_step := now,
                   last_accel_step := now,
                   us_per_step_target :=
                     if min rpm s.max_rpm ≠ 0 then
                       rpm_to_step_us s (min rpm s.max_rpm)
                     else 0 } := by
        unfold stepper_set_rpm
        rw [if_neg h]
      rw [h1]
      unfold stepper_set_rpm
      rw [if_pos rfl]

/-- Witness for C6: requesting 30 rpm on the fresh motor (max 60, current
target 0) stores the converted interval. -/
theorem set_rpm_clamp_idempotent_witness :
    (min 30 demo.max_rpm ≠ demo.target_rpm) ∧
    (stepper_set_rpm demo 30 100).us_per_step_target =
      (if min 30 demo.max_rpm ≠ 0 then rpm_to_step_us demo (min 30 demo.max_rpm)
       else 0) :=
  ⟨by decide, (set_rpm_clamp_idempotent demo 30 100 250).2.1 (by decide)⟩

/-- Claim C8 evaluated at its failing input: `stepper_set_accel` with a
nonzero acceleration and `min_rpm = 0` evaluates `rpm_to_step_us` with a
zero divisor (`US_PER_MIN / (0 * steps_per_rev)`), a division by zero and
undefined behavior in the C source, modelled here as `none`.  The source
defines `MIN_RPM (1ull)` but never applies it as a clamp, so the documented
"clamp, never abort" policy is violated at this input. -/
theorem set_accel_zero_min_rpm_divides_by_zero :
    stepper_set_accel demo 1 0 = none := by decide

/-- Claim C10: when the clamped rpm differs from the current target,
`stepper_set_rpm` resets both timing anchors `last_step` and
`last_accel_step` to the current time (discarding elapsed progress toward
the next step or ramp unit), stores the new target rpm and target interval,
and leaves every other field of the motor unchanged. -/
theorem set_rpm_frame (s : Stepper) (rpm now : Nat)
    (h : min rpm s.max_rpm ≠ s.target_rpm) :
    (stepper_set_rpm s rpm now).last_step = now ∧
    (stepper_set_rpm s rpm now).last_accel_step = now ∧
    (stepper_set_rpm s rpm now).target_rpm = min rpm s.max_rpm ∧
    (stepper_set_rpm s rpm now).us_per_step_target =
      (if min rpm s.max_rpm ≠ 0 then rpm_to_step_us s (min rpm s.max_rpm)
       else 0) ∧
    (stepper_set_rpm s rpm now).steps_per_rev = s.steps_per_rev ∧
    (stepper_set_rpm s rpm now).max_rpm = s.max_rpm ∧
    (stepper_set_rpm s rpm now).mode = s.mode ∧
    (stepper_set_rpm s rpm now).mask = s.mask ∧
    (stepper_set_rpm s rpm now).half_mask = s.half_mask ∧
    (stepper_set_rpm s rpm now).num_pins = s.num_pins ∧
    (stepper_set_rpm s rpm now).us_per_step = s.us_per_step ∧
    (stepper_set_rpm s rpm now).us_accel = s.us_accel ∧
    (stepper_set_rpm s rpm now).max_us_per_step = s.max_us_per_step ∧
    (stepper_set_rpm s rpm now).step_count = s.step_count := by
  unfold stepper_set_rpm
  rw [if_neg h]
  exact ⟨rfl, rfl, rfl, rfl, rfl, rfl, rfl, rfl, rfl, rfl, rfl, rfl, rfl, rfl⟩

/-- Witness for C10: setting 30 rpm at time 100 on the fresh motor resets
both anchors to 100 and preserves the step count. -/
theorem set_rpm_frame_witness :
    (min 30 demo.max_rpm ≠ demo.target_rpm) ∧
    ((stepper_set_rpm demo 30 100).last_step = 100 ∧
     (stepper_set_rpm demo 30 100).last_accel_step = 100 ∧
     (stepper_set_rpm demo 30 100).step_count = demo.step_count) :=
  ⟨by decide,
   (set_rpm_frame demo 30 100 (by decide)).1,
   (set_rpm_frame demo 30 100 (by decide)).2.1,
   (set_rpm_frame demo 30 100 (by decide)).2.2.2.2.2.2.2.2.2.2.2.2.2⟩

/-! ### The held-or-stepping mask invariant (claim C9) -/

theorem mod_ne_zero_of_testBit {x n j : Nat} (hj : j < n)
    (hb : x.testBit j = true) : x % 2 ^ n ≠ 0 := by
  intro h0
  have h : (x % 2 ^ n).testBit j = true := by
    rw [Nat.testBit_mod_two_pow]
    simp [hj, hb]
  rw [h0] at h
  simp at h

theorem step_mask_lt (mask : Nat) (b : Bool) (n : Nat) :
    step_mask mask b n < 2 ^ n := by
  unfold step_mask
  dsimp only
  rw [Nat.one_shiftLeft, Nat.and_pow_two_sub_one_eq_mod]
  exact Nat.mod_lt _ (Nat.two_pow_pos n)

theorem step_mask_ne_zero {m n : Nat} (b : Bool) (hn : 1 ≤ n)
    (hm : m % 2 ^ n ≠ 0) : step_mask m b n ≠ 0 := by
  obtain ⟨i, hi⟩ := Nat.ne_zero_implies_bit_true hm
  rw [Nat.testBit_mod_two_pow, Bool.and_eq_true, decide_eq_true_eq] at hi
  obtain ⟨hin, hbit⟩ := hi
  unfold step_mask
  dsimp only
  rw [Nat.one_shiftLeft, Nat.and_pow_two_sub_one_eq_mod]
  cases b
  · -- backward: the ring rotates up, reintroducing the top bit at the bottom
    rw [if_neg (by simp)]
    by_cases htop : i + 1 = n
    · have hc : (m <<< 1) &&& 2 ^ n ≠ 0 := by
        have h : ((m <<< 1) &&& 2 ^ n).testBit n = true := by
          rw [Nat.testBit_and, Nat.testBit_shiftLeft, Nat.testBit_two_pow_self]
          have h1 : n - 1 = i := by omega
          simp [hn, h1, hbit]
        intro h0
        rw [h0] at h
        simp at h
      rw [if_pos hc]
      apply mod_ne_zero_of_testBit (j := 0) (by omega)
      rw [Nat.testBit_or]
      simp
    · have hlt : i + 1 < n := by omega
      have hsh : (m <<< 1).testBit (i + 1) = true := by
        rw [Nat.testBit_shiftLeft]
        simp [hbit]
      split
      · apply mod_ne_zero_of_testBit (j := i + 1) hlt
        rw [Nat.testBit_or, hsh]
        simp
      · exact mod_ne_zero_of_testBit (j := i + 1) hlt hsh
  · -- forward: the ring rotates down, reintroducing bit 0 at the top
    rw [if_pos rfl]
    by_cases hodd : m &&& 1 ≠ 0
    · rw [if_pos hodd]
      apply mod_ne_zero_of_testBit (j := n - 1) (by omega)
      rw [Nat.testBit_shiftRight]
      have h1 : 1 + (n - 1) = n := by omega
      rw [h1, Nat.testBit_or, Nat.testBit_two_pow_self]
      simp
    · rw [if_neg hodd]
      have heven : m % 2 = 0 := by
        have h := Nat.and_one_is_mod m
        omega
      have hi0 : i ≠ 0 := by
        intro h0
        rw [h0, Nat.testBit_zero] at hbit
        simp [heven] at hbit
      apply mod_ne_zero_of_testBit (j := i - 1) (by omega)
      rw [Nat.testBit_shiftRight]
      have h1 : 1 + (i - 1) = i := by omega
      rw [h1]
      exact hbit

theorem hold_mask_mod (s : Stepper) (hn : 1 ≤ s.num_pins) :
    (stepper_hold s).mask % 2 ^ (stepper_hold s).num_pins ≠ 0 := by
  rw [hold_num_pins]
  cases hm : s.mode <;> simp only [stepper_hold, hm]
  · rw [Nat.mod_eq_of_lt (Nat.one_lt_two_pow (by omega))]
    omega
  · intro h
    have hd : 2 ^ s.num_pins ∣ 3 := Nat.dvd_of_mod_eq_zero h
    have h2 : (2 : Nat) ∣ 2 ^ s.num_pins := dvd_pow_self 2 (by omega)
    have h3 : (2 : Nat) ∣ 3 := h2.trans hd
    omega
  · rw [Nat.mod_eq_of_lt (Nat.one_lt_two_pow (by omega))]
    omega

theorem step_mask_mod (s : Stepper) (b : Bool) (hn : 1 ≤ s.num_pins)
    (hP : s.mask % 2 ^ s.num_pins ≠ 0) :
    (step s b).mask % 2 ^ (step s b).num_pins ≠ 0 := by
  rw [step_num_pins]
  have hmask : s.mask ≠ 0 := by
    intro h
    rw [h] at hP
    simp at hP
  unfold step
  rw [if_neg hmask]
  split
  · dsimp only
    rw [Nat.mod_eq_of_lt (step_mask_lt _ _ _)]
    exact step_mask_ne_zero b hn hP
  · exact hP

theorem held_mask_mod (s : Stepper) (h : HeldReach s) :
    1 ≤ s.num_pins → s.mask % 2 ^ s.num_pins ≠ 0 := by
  induction h with
  | hold' t =>
    intro hn
    rw [hold_num_pins] at hn
    exact hold_mask_mod t hn
  | step' t b ht ih =>
    intro hn
    rw [step_num_pins] at hn
    exact step_mask_mod t b hn (ih hn)

/-- Claim C9: in every state reached by `stepper_hold` followed by any
sequence of phase advances (with at least one registered winding), the
combined pattern `mask ||| half_mask` is nonzero; `stepper_brake` is the
operation that clears both masks; and a step attempted while both masks are
zero re-establishes the hold pattern instead of rotating. -/
theorem held_or_stepping_nonzero (s : Stepper) (h : HeldReach s)
    (hn : 1 ≤ s.num_pins) :
    s.mask ||| s.half_mask ≠ 0 ∧
    ((stepper_brake s).mask = 0 ∧ (stepper_brake s).half_mask = 0) ∧
    (∀ t : Stepper, t.mask = 0 → t.half_mask = 0 → ∀ b,
      step t b = stepper_hold t) := by
  refine ⟨?_, ⟨rfl, rfl⟩, ?_⟩
  · have hm : s.mask ≠ 0 := by
      intro h0
      apply held_mask_mod s h hn
      rw [h0]
      simp
    intro h0
    apply hm
    apply Nat.eq_of_testBit_eq
    intro i
    have hbit := congrArg (fun x => x.testBit i) h0
    simp only [Nat.testBit_or, Nat.zero_testBit] at hbit ⊢
    rcases Bool.or_eq_false_iff.mp hbit with ⟨h1, _⟩
    exact h1
  · intro t hm _ b
    unfold step
    rw [if_pos hm]

/-- Witness for C9 at a concrete held motor. -/
theorem held_or_stepping_nonzero_witness :
    (HeldReach (stepper_hold demo) ∧ 1 ≤ (stepper_hold demo).num_pins) ∧
    (stepper_hold demo).mask ||| (stepper_hold demo).half_mask ≠ 0 :=
  ⟨⟨HeldReach.hold' demo, by decide⟩,
   (held_or_stepping_nonzero (stepper_hold demo) (HeldReach.hold' demo)
     (by decide)).1⟩

end PicoStepper
